import Mathlib

/-
  Shallow embedding of src/gravity_bridge.py, a best-effort CPU temperature
  reporter.  External collaborators (filesystem contents, kernel release
  string, subprocess outcomes) are explicit parameters; Python floats are
  modelled as exact rationals; Python `None` as `Option.none`; an uncaught
  Python exception as `Except.error ()`.  Debug tracing writes only to
  stderr and never influences a returned value, so it is omitted.
-/

/-- Models Python whitespace characters for `str.strip()` (ASCII subset). -/
def isSpaceCh (c : Char) : Bool :=
  c == ' ' || c == '\t' || c == '\n' || c == '\r' || c == '\x0b' || c == '\x0c'

/-- Models Python `s.strip()`: drop leading and trailing whitespace. -/
def pyStrip (s : String) : String :=
  ⟨((s.data.dropWhile isSpaceCh).reverse.dropWhile isSpaceCh).reverse⟩

/-- Models Python `s.isdigit()`: nonempty and all characters are digits. -/
def pyIsDigit (s : String) : Bool :=
  !s.data.isEmpty && s.data.all Char.isDigit

/-- Numeric value of a digit string, most significant digit first. -/
def digitsToNat (l : List Char) : Nat :=
  l.foldl (fun a c => 10 * a + (c.toNat - 48)) 0

/-- Does the haystack start with the needle (first argument is the needle)? -/
def chStarts : List Char → List Char → Bool
  | [], _ => true
  | _ :: _, [] => false
  | a :: as, b :: bs => a == b && chStarts as bs

/-- Models Python `needle in hay` substring containment on char lists. -/
def hasSub (n : List Char) : List Char → Bool
  | [] => chStarts n []
  | b :: bs => chStarts n (b :: bs) || hasSub n bs

/-- Substring containment on strings, needle first. -/
def strHasSub (n s : String) : Bool := hasSub n.data s.data

/-- Models Python `s.startswith(p)`, pattern first. -/
def startsWithStr (p s : String) : Bool := chStarts p.data s.data

/-- Models Python `s.endswith(p)`, pattern first. -/
def endsWithStr (p s : String) : Bool := chStarts p.data.reverse s.data.reverse

/-- Removes the first occurrence of a dot from a char list. -/
def dropFirstDot : List Char → List Char
  | [] => []
  | c :: r => if c == '.' then r else c :: dropFirstDot r

/-- Models Python `raw.replace('.', '', 1)`. -/
def stripFirstDot (s : String) : String := ⟨dropFirstDot s.data⟩

/-- Characters the numeric-token scanners accept: digits and the dot. -/
def isNumCh (c : Char) : Bool := c.isDigit || c == '.'

/-- A string of digits and at most one dot, holding at least one digit:
    exactly the digit-and-dot strings Python `float()` accepts. -/
def plainNumber (s : String) : Bool :=
  s.data.all isNumCh && (s.data.count '.' ≤ 1) && s.data.any Char.isDigit

/-- Value of a digit-and-dot literal: integer part plus fractional part. -/
def numVal (l : List Char) : ℚ :=
  let ip := l.takeWhile (fun c => c ≠ '.')
  match l.dropWhile (fun c => c ≠ '.') with
  | [] => (digitsToNat ip : ℚ)
  | _ :: fp => (digitsToNat ip : ℚ) + (digitsToNat fp : ℚ) / (10 ^ fp.length)

/-- Models Python `float(s)` on the digit-and-dot token class that reaches it
    in this program; `none` models a raised `ValueError` (e.g. on "."). -/
def pyFloatQ (s : String) : Option ℚ :=
  if plainNumber s then some (numVal s.data) else none

/-- First match of the regex `[0-9\.]+`: the leftmost maximal run of digits
    and dots, as `re.findall` produces for the macOS probe. -/
def firstNumToken : List Char → Option (List Char)
  | [] => none
  | c :: rest =>
    if isNumCh c then some (c :: rest.takeWhile isNumCh) else firstNumToken rest

/-- Scanner for the regex `\d{4,}`: accumulates the current digit run
    (reversed) and yields the first completed run of length at least four. -/
def digitRun4Aux (cur : List Char) : List Char → Option (List Char)
  | [] => if 4 ≤ cur.length then some cur.reverse else none
  | c :: rest =>
    if c.isDigit then digitRun4Aux (c :: cur) rest
    else if 4 ≤ cur.length then some cur.reverse
    else digitRun4Aux [] rest

/-- First match of `re.findall(r'(\d{4,})', s)`: the leftmost maximal run of
    at least four consecutive digits. -/
def firstDigitRun4 (s : String) : Option (List Char) := digitRun4Aux [] s.data

/-- Outcome of one subprocess invocation: captured stdout bytes decoded to
    text, or any failure (missing executable, nonzero exit, I/O or decode
    error), which `run_command` collapses to an absent result. -/
inductive ProcOut where
  | ok (out : String)
  | fail
deriving DecidableEq

/-- Embeds `run_command`: on success return the stripped decoded output, on
    any error return `None`.  The debug flag only writes to stderr. -/
def run_command : ProcOut → Option String
  | .ok s => some (pyStrip s)
  | .fail => none

/-- Embeds the magnitude-based unit classification of a plain-integer value
    in `get_windows_temp` (lines 120-138): deci-Kelvin, Kelvin, or Celsius
    window, otherwise no reading. -/
def classifyPlainInt (v : ℚ) : Option ℚ :=
  if 2500 < v ∧ v < 4000 then some (v / 10 - 273.15)
  else if 200 < v ∧ v < 400 then some (v - 273.15)
  else if 0 < v ∧ v < 150 then some v
  else none

/-- Embeds one Windows/WSL strategy body (lines 107-141): `isOhm` models
    whether the command string contains "OpenHardwareMonitor" (true exactly
    for the fourth strategy); `res` is the `run_command` result. -/
def stratStep (isOhm : Bool) (res : Option String) : Option ℚ :=
  match res with
  | none => none
  | some raw =>
    if raw = "" then none
    else if isOhm && pyIsDigit (stripFirstDot raw) then pyFloatQ raw
    else if pyIsDigit raw then classifyPlainInt (digitsToNat raw.data : ℚ)
    else none

/-- Embeds the strategy loop of `get_windows_temp`: first strategy yielding
    a value wins; a failed or implausible strategy falls through.  Any
    exception inside a strategy is caught and also falls through. -/
def winLoop : List (Bool × Option String) → Option ℚ
  | [] => none
  | (b, r) :: rest =>
    match stratStep b r with
    | some v => some v
    | none => winLoop rest

/-- Embeds the wmic fallback (lines 150-164): extract the first run of four
    or more digits and convert from deci-Kelvin when inside (2500, 4000). -/
def wmicStep (res : Option String) : Option ℚ :=
  match res with
  | none => none
  | some raw =>
    if raw = "" then none
    else
      match firstDigitRun4 raw with
      | none => none
      | some ds =>
        if 2500 < (digitsToNat ds : ℚ) ∧ (digitsToNat ds : ℚ) < 4000
        then some ((digitsToNat ds : ℚ) / 10 - 273.15) else none

/-- Subprocess outcomes seen by one `get_windows_temp` run: the four
    PowerShell strategies in order, then the wmic fallback.  Interpreter
    path resolution only chooses which executable is spawned, so it is
    absorbed into these outcomes. -/
structure WinEnv where
  s1 : ProcOut
  s2 : ProcOut
  s3 : ProcOut
  s4 : ProcOut
  wm : ProcOut
deriving DecidableEq

/-- Embeds `get_windows_temp`.  The debug and WSL-mode flags influence only
    stderr tracing and executable path resolution, not the returned value. -/
def get_windows_temp (e : WinEnv) : Option ℚ :=
  match winLoop
      [(false, run_command e.s1), (false, run_command e.s2),
       (false, run_command e.s3), (true, run_command e.s4)] with
  | some v => some v
  | none => wmicStep (run_command e.wm)

/-- One thermal-zone directory entry matching the `thermal_zone*` pattern,
    in enumeration order: whether its `type` and `temp` files exist, and
    their raw contents. -/
structure Zone where
  hasTypeFile : Bool
  hasTempFile : Bool
  ztype : String
  ztemp : String
deriving DecidableEq

/-- Does a zone type label name a preferred source (line 192)? -/
def prefType (t : String) : Bool :=
  strHasSub "x86_pkg_temp" t || strHasSub "coretemp" t

/-- Raw numeric value of a zone temp file. -/
def zoneRaw (z : Zone) : ℚ := (digitsToNat (pyStrip z.ztemp).data : ℚ)

/-- A zone reading converted from milli-Celsius. -/
def zoneVal (z : Zone) : ℚ := zoneRaw z / 1000

/-- A zone whose files exist, whose type is preferred and whose temp is
    purely numeric: the branch at lines 192-197 returns it immediately. -/
def preferredNum (z : Zone) : Bool :=
  z.hasTypeFile && z.hasTempFile && prefType (pyStrip z.ztype)
    && pyIsDigit (pyStrip z.ztemp)

/-- A zone usable as the first-valid fallback candidate (lines 199-206):
    files exist, temp is numeric and strictly positive. -/
def validPos (z : Zone) : Bool :=
  z.hasTypeFile && z.hasTempFile && pyIsDigit (pyStrip z.ztemp)
    && decide (0 < zoneRaw z)

/-- Embeds the thermal-zone scan of `get_linux_native_temp` (lines 182-209):
    return the first preferred zone immediately, otherwise remember the
    first valid positive zone as candidate and keep scanning. -/
def zoneScan : List Zone → Option ℚ → Option ℚ
  | [], cand => cand
  | z :: rest, cand =>
    if z.hasTypeFile && z.hasTempFile then
      if prefType (pyStrip z.ztype) && pyIsDigit (pyStrip z.ztemp) then
        some (zoneVal z)
      else
        zoneScan rest
          (if cand.isNone && (pyIsDigit (pyStrip z.ztemp)
              && decide (0 < zoneRaw z)) then some (zoneVal z) else cand)
    else zoneScan rest cand

/-- One file inside a hwmon device directory: its name and raw contents. -/
structure HwFile where
  fname : String
  content : String
deriving DecidableEq

/-- Celsius value of a hwmon file reading (raw milli-Celsius over 1000). -/
def hwVal (f : HwFile) : ℚ := (digitsToNat (pyStrip f.content).data : ℚ) / 1000

/-- A hwmon file the fallback accepts: `temp*_input` name, numeric content,
    converted value strictly between 10 and 150 (lines 222-230). -/
def hwOk (f : HwFile) : Bool :=
  startsWithStr "temp" f.fname && endsWithStr "_input" f.fname
    && pyIsDigit (pyStrip f.content)
    && decide (10 < hwVal f) && decide (hwVal f < 150)

/-- Embeds the inner hwmon file loop: first accepted reading wins. -/
def hwFileScan : List HwFile → Option ℚ
  | [] => none
  | f :: rest =>
    if startsWithStr "temp" f.fname && endsWithStr "_input" f.fname then
      if pyIsDigit (pyStrip f.content) then
        if 10 < hwVal f ∧ hwVal f < 150 then some (hwVal f)
        else hwFileScan rest
      else hwFileScan rest
    else hwFileScan rest

/-- Embeds the outer hwmon directory loop (lines 218-230). -/
def hwScanDirs : List (List HwFile) → Option ℚ
  | [] => none
  | d :: rest =>
    match hwFileScan d with
    | some v => some v
    | none => hwScanDirs rest

/-- Filesystem state seen by one `get_linux_native_temp` run: whether the
    two base directories exist, the `thermal_zone*` entries in enumeration
    order, and each hwmon directory's files in enumeration order. -/
structure LinuxEnv where
  thermalExists : Bool
  zones : List Zone
  hwmonExists : Bool
  hwmon : List (List HwFile)
deriving DecidableEq

/-- Embeds `get_linux_native_temp`: absent when the thermal base directory
    is missing; otherwise the zone scan, then the hwmon fallback. -/
def get_linux_native_temp (e : LinuxEnv) : Option ℚ :=
  if !e.thermalExists then none
  else
    match zoneScan e.zones none with
    | some v => some v
    | none => if e.hwmonExists then hwScanDirs e.hwmon else none

/-- Embeds `get_macos_temp`: run the temperature utility, take the first
    `[0-9\.]+` token, and convert it with `float`.  A token `float`
    rejects (such as ".") raises a ValueError that nothing catches,
    modelled as `Except.error ()`. -/
def get_macos_temp (p : ProcOut) : Except Unit (Option ℚ) :=
  match run_command p with
  | none => .ok none
  | some s =>
    if s = "" then .ok none
    else
      match firstNumToken s.data with
      | none => .ok none
      | some tok =>
        match pyFloatQ ⟨tok⟩ with
        | some v => .ok (some v)
        | none => .error ()

/-- Embeds `is_wsl`: lowercase the kernel release and test the two marker
    substrings; any failure obtaining the release yields `false`. -/
def is_wsl (r : Except Unit String) : Bool :=
  match r with
  | .error _ => false
  | .ok s =>
    let rel : String := ⟨s.data.map Char.toLower⟩
    strHasSub "microsoft" rel || strHasSub "wsl" rel

/-- Nearest integer with ties to even, used by `%.1f` on the scaled value. -/
def rhe (q : ℚ) : ℤ :=
  if q - ⌊q⌋ < 1 / 2 then ⌊q⌋
  else if (1 : ℚ) / 2 < q - ⌊q⌋ then ⌊q⌋ + 1
  else if ⌊q⌋ % 2 = 0 then ⌊q⌋ else ⌊q⌋ + 1

/-- Models the f-string `f"{temp:.1f}"`: round to one fractional digit with
    ties to even and render with exactly one digit after the point. -/
def fmt1 (q : ℚ) : String :=
  let n := rhe (10 * q)
  (if q < 0 then "-" else "")
    ++ toString (n.natAbs / 10) ++ "." ++ toString (n.natAbs % 10)

/-- Complete external environment of one program run: the kernel release
    (or a failure obtaining it), the reported OS name, and the subprocess
    and filesystem collaborators each probe may consume. -/
structure Env where
  release : Except Unit String
  sysname : String
  win : WinEnv
  linux : LinuxEnv
  macOut : ProcOut

/-- Probe dispatch of `main` (lines 261-268): WSL detection first, then
    strict dispatch on the OS name; unsupported names probe nothing. -/
def probeResult (e : Env) : Except Unit (Option ℚ) :=
  if is_wsl e.release then .ok (get_windows_temp e.win)
  else if e.sysname = "Windows" then .ok (get_windows_temp e.win)
  else if e.sysname = "Linux" then .ok (get_linux_native_temp e.linux)
  else if e.sysname = "Darwin" then get_macos_temp e.macOut
  else .ok none

/-- Embeds `main` (the name `main` itself is reserved in Lean): the single
    stdout line — the formatted reading or the `N/A` sentinel — or
    `Except.error` when a probe raises uncaught. -/
def pymain (e : Env) : Except Unit String :=
  match probeResult e with
  | .error u => .error u
  | .ok none => .ok "N/A"
  | .ok (some v) => .ok (fmt1 v)

/-
  Correctness of the substring scanner, needed to relate `is_wsl` to the
  specification-level notion of case-insensitive containment.
-/

/-- A char-list scan starts with the needle exactly when the needle is a
    prefix of it. -/
theorem chStarts_iff (n : List Char) :
    ∀ h : List Char, chStarts n h = true ↔ ∃ t, h = n ++ t := by
  induction n with
  | nil => intro h; simp [chStarts]
  | cons a as ih =>
    intro h
    cases h with
    | nil => simp [chStarts]
    | cons b bs =>
      simp only [chStarts, Bool.and_eq_true, beq_iff_eq, ih bs, List.cons_append,
        List.cons.injEq]
      constructor
      · rintro ⟨rfl, t, rfl⟩; exact ⟨t, rfl, rfl⟩
      · rintro ⟨t, rfl, rfl⟩; exact ⟨rfl, t, rfl⟩

/-- The scanner finds the needle exactly when it occurs as a contiguous
    substring. -/
theorem hasSub_iff (n : List Char) :
    ∀ h : List Char, hasSub n h = true ↔ ∃ p q, h = p ++ n ++ q := by
  intro h
  induction h with
  | nil =>
    simp only [hasSub, chStarts_iff]
    constructor
    · rintro ⟨t, ht⟩; exact ⟨[], t, by simpa using ht⟩
    · rintro ⟨p, q, hpq⟩
      obtain ⟨-, hn, -⟩ :=
        by simpa [List.append_eq_nil] using hpq.symm
      exact ⟨[], by simp [hn]⟩
  | cons b bs ih =>
    simp only [hasSub, Bool.or_eq_true, chStarts_iff, ih]
    constructor
    · rintro (⟨t, ht⟩ | ⟨p, q, rfl⟩)
      · exact ⟨[], t, by simpa using ht⟩
      · exact ⟨b :: p, q, by simp⟩
    · rintro ⟨p, q, hpq⟩
      cases p with
      | nil => exact Or.inl ⟨q, by simpa using hpq⟩
      | cons x xs =>
        simp only [List.cons_append, List.cons.injEq] at hpq
        exact Or.inr ⟨xs, q, hpq.2⟩

/-- Splitting a mapped list along an append splits the original list. -/
theorem map_append_split {α β : Type} (f : α → β) (l : List α) (a b : List β)
    (h : l.map f = a ++ b) :
    ∃ a' b', l = a' ++ b' ∧ a'.map f = a ∧ b'.map f = b := by
  refine ⟨l.take a.length, l.drop a.length, (List.take_append_drop _ l).symm, ?_, ?_⟩
  · rw [List.map_take, h, List.take_left]
  · rw [List.map_drop, h, List.drop_left]

/-- Specification-level case-insensitive containment: some contiguous slice
    of the haystack lowercases to the (lowercase) needle. -/
def LowerContains (needle hay : List Char) : Prop :=
  ∃ p m q, hay = p ++ m ++ q ∧ m.map Char.toLower = needle

/-- Containment in the lowercased haystack coincides with case-insensitive
    containment in the original. -/
theorem hasSub_lower_iff (n h : List Char) :
    hasSub n (h.map Char.toLower) = true ↔ LowerContains n h := by
  rw [hasSub_iff]
  constructor
  · rintro ⟨p, q, hpq⟩
    obtain ⟨pm, rest, rfl, hp, hrest⟩ := map_append_split Char.toLower h (p ++ n) q
      (by rw [hpq, List.append_assoc])
    obtain ⟨p', m', rfl, hp', hm'⟩ := map_append_split Char.toLower pm p n hp
    exact ⟨p', m', rest, by rw [List.append_assoc], hm'⟩
  · rintro ⟨p, m, q, rfl, hm⟩
    exact ⟨p.map Char.toLower, q.map Char.toLower, by
      simp [List.map_append, hm]⟩

/-
  Behaviour of the thermal-zone scan: a preferred zone short-circuits the
  scan wherever it sits; without preferred zones the first valid positive
  zone becomes the result.  The two guards of `zoneScan` regroup the
  conjunctions of `preferredNum` and `validPos`.
-/

/-- Regrouping of the preferred-zone test along the scan's two guards. -/
theorem preferredNum_split (z : Zone) :
    preferredNum z
      = ((z.hasTypeFile && z.hasTempFile)
          && (prefType (pyStrip z.ztype) && pyIsDigit (pyStrip z.ztemp))) := by
  rw [preferredNum, Bool.and_assoc]

/-- Regrouping of the fallback-candidate test along the scan's guards. -/
theorem validPos_split (z : Zone) :
    validPos z
      = ((z.hasTypeFile && z.hasTempFile)
          && (pyIsDigit (pyStrip z.ztemp) && decide (0 < zoneRaw z))) := by
  rw [validPos, Bool.and_assoc]

/-- When the scan reaches a first preferred zone, it returns that zone's
    reading no matter what fallback candidate was accumulated. -/
theorem zoneScan_pref (zs : List Zone) (z : Zone)
    (h : zs.find? preferredNum = some z) :
    ∀ cand, zoneScan zs cand = some (zoneVal z) := by
  induction zs with
  | nil => simp [List.find?] at h
  | cons z0 rest ih =>
    intro cand
    by_cases hp : preferredNum z0 = true
    · rw [List.find?_cons_of_pos _ hp] at h
      cases h
      rw [preferredNum_split, Bool.and_eq_true] at hp
      rw [zoneScan, if_pos hp.1, if_pos hp.2]
    · rw [List.find?_cons_of_neg _ hp] at h
      rw [Bool.not_eq_true, preferredNum_split] at hp
      rw [zoneScan]
      by_cases hf : (z0.hasTypeFile && z0.hasTempFile) = true
      · rw [hf, Bool.true_and] at hp
        rw [if_pos hf, if_neg (by rw [hp]; exact Bool.false_ne_true), ih h]
      · rw [if_neg hf, ih h]

/-- Without preferred zones, an already-fixed candidate survives the scan. -/
theorem zoneScan_keep (zs : List Zone)
    (h : ∀ z ∈ zs, preferredNum z = false) (c : ℚ) :
    zoneScan zs (some c) = some c := by
  induction zs with
  | nil => rfl
  | cons z0 rest ih =>
    have h0 := h z0 (List.mem_cons_self _ _)
    have hih := ih (fun z hz => h z (List.mem_cons_of_mem _ hz))
    rw [preferredNum_split] at h0
    rw [zoneScan]
    by_cases hf : (z0.hasTypeFile && z0.hasTempFile) = true
    · rw [hf, Bool.true_and] at h0
      rw [if_pos hf, if_neg (by rw [h0]; exact Bool.false_ne_true)]
      simpa using hih
    · rw [if_neg hf]
      exact hih

/-- Without preferred zones, the scan started with no candidate yields the
    first valid positive zone, if any. -/
theorem zoneScan_fallback (zs : List Zone)
    (h : ∀ z ∈ zs, preferredNum z = false) :
    zoneScan zs none = (zs.find? validPos).map zoneVal := by
  induction zs with
  | nil => rfl
  | cons z0 rest ih =>
    have h0 := h z0 (List.mem_cons_self _ _)
    have hrest : ∀ z ∈ rest, preferredNum z = false :=
      fun z hz => h z (List.mem_cons_of_mem _ hz)
    rw [preferredNum_split] at h0
    rw [zoneScan]
    by_cases hf : (z0.hasTypeFile && z0.hasTempFile) = true
    · rw [hf, Bool.true_and] at h0
      rw [if_pos hf, if_neg (by rw [h0]; exact Bool.false_ne_true)]
      by_cases hv : (pyIsDigit (pyStrip z0.ztemp) && decide (0 < zoneRaw z0)) = true
      · have hvp : validPos z0 = true := by
          rw [validPos_split, hf, hv]; rfl
        rw [List.find?_cons_of_pos _ hvp]
        simp only [Option.isNone_none, Bool.true_and, hv, if_true]
        exact (zoneScan_keep rest hrest _).trans rfl
      · have hvp : validPos z0 = false := by
          rw [validPos_split, hf, Bool.true_and, Bool.eq_false_iff]
          exact hv
        rw [List.find?_cons_of_neg _ (by rw [hvp]; exact Bool.false_ne_true)]
        rw [if_neg (by simp only [Option.isNone_none, Bool.true_and]; exact hv)]
        exact ih hrest
    · have hvp : validPos z0 = false := by
        rw [validPos_split, Bool.eq_false_iff]
        intro hc
        exact hf ((Bool.and_eq_true _ _).mp hc).1
      rw [if_neg hf, List.find?_cons_of_neg _ (by rw [hvp]; exact Bool.false_ne_true)]
      exact ih hrest

/-
  Behaviour of the hwmon fallback scan.
-/

/-- Regrouping of the hwmon acceptance test along the scan's guards. -/
theorem hwOk_split (f : HwFile) :
    hwOk f
      = ((startsWithStr "temp" f.fname && endsWithStr "_input" f.fname)
          && (pyIsDigit (pyStrip f.content)
          && (decide (10 < hwVal f) && decide (hwVal f < 150)))) := by
  rw [hwOk, Bool.and_assoc, Bool.and_assoc]

/-- Every value produced by the hwmon file scan lies strictly inside the
    (10, 150) sanity window. -/
theorem hwFileScan_mem (fs : List HwFile) (c : ℚ) (h : hwFileScan fs = some c) :
    10 < c ∧ c < 150 := by
  induction fs with
  | nil => exact absurd h (by simp [hwFileScan])
  | cons f rest ih =>
    rw [hwFileScan] at h
    by_cases h1 : (startsWithStr "temp" f.fname && endsWithStr "_input" f.fname) = true
    · rw [if_pos h1] at h
      by_cases h2 : pyIsDigit (pyStrip f.content) = true
      · rw [if_pos h2] at h
        by_cases h3 : 10 < hwVal f ∧ hwVal f < 150
        · rw [if_pos h3] at h
          cases h
          exact h3
        · rw [if_neg h3] at h
          exact ih h
      · rw [if_neg h2] at h
        exact ih h
    · rw [if_neg h1] at h
      exact ih h

/-- Every value produced by the whole hwmon fallback lies strictly inside
    the (10, 150) sanity window. -/
theorem hwScanDirs_mem (ds : List (List HwFile)) (c : ℚ)
    (h : hwScanDirs ds = some c) : 10 < c ∧ c < 150 := by
  induction ds with
  | nil => exact absurd h (by simp [hwScanDirs])
  | cons d rest ih =>
    rw [hwScanDirs] at h
    cases hd : hwFileScan d with
    | some v => rw [hd] at h; cases h; exact hwFileScan_mem d _ hd
    | none => rw [hd] at h; exact ih h

/-- The file scan returns the first accepted file's reading. -/
theorem hwFileScan_find (fs : List HwFile) (f : HwFile)
    (h : fs.find? hwOk = some f) : hwFileScan fs = some (hwVal f) := by
  induction fs with
  | nil => simp [List.find?] at h
  | cons g rest ih =>
    by_cases hg : hwOk g = true
    · rw [List.find?_cons_of_pos _ hg] at h
      cases h
      rw [hwOk_split, Bool.and_eq_true] at hg
      obtain ⟨h1, h23⟩ := hg
      rw [Bool.and_eq_true] at h23
      obtain ⟨h2, h3⟩ := h23
      rw [Bool.and_eq_true, decide_eq_true_eq, decide_eq_true_eq] at h3
      rw [hwFileScan, if_pos h1, if_pos h2, if_pos h3]
    · rw [List.find?_cons_of_neg _ hg] at h
      rw [Bool.not_eq_true, hwOk_split] at hg
      rw [hwFileScan]
      by_cases h1 : (startsWithStr "temp" g.fname && endsWithStr "_input" g.fname) = true
      · rw [h1, Bool.true_and] at hg
        rw [if_pos h1]
        by_cases h2 : pyIsDigit (pyStrip g.content) = true
        · rw [h2, Bool.true_and] at hg
          rw [if_pos h2, if_neg (by
            rw [Bool.and_eq_false_iff] at hg
            rcases hg with hg | hg <;> rw [decide_eq_false_iff_not] at hg
            · exact fun hc => hg hc.1
            · exact fun hc => hg hc.2)]
          exact ih h
        · rw [if_neg h2]
          exact ih h
      · rw [if_neg h1]
        exact ih h

/-
  The open-hardware-monitor branch test: a digit-and-dot numeral passes the
  replace-one-dot-then-isdigit check, and `float` then accepts it.
-/

/-- A digit-or-dot character other than the dot is a digit. -/
theorem isNumCh_not_dot (c : Char) (h1 : isNumCh c = true)
    (h2 : (c == '.') = false) : c.isDigit = true := by
  rw [isNumCh, h2, Bool.or_false] at h1
  exact h1

/-- A dot-free string of digit-or-dot characters is all digits. -/
theorem noDot_all_digit (l : List Char) (hall : l.all isNumCh = true)
    (hc : l.count '.' = 0) : l.all Char.isDigit = true := by
  induction l with
  | nil => rfl
  | cons c r ih =>
    rw [List.all_cons, Bool.and_eq_true] at hall
    rw [List.count_cons] at hc
    by_cases hd : (c == '.') = true
    · rw [if_pos hd] at hc
      omega
    · rw [if_neg hd] at hc
      rw [List.all_cons, Bool.and_eq_true]
      exact ⟨isNumCh_not_dot c hall.1 (Bool.eq_false_iff.mpr hd), ih hall.2 (by omega)⟩

/-- Removing the first dot from a digit-and-dot string with at most one dot
    leaves only digits. -/
theorem dropFirstDot_all_digit (l : List Char) (hall : l.all isNumCh = true)
    (hc : l.count '.' ≤ 1) : (dropFirstDot l).all Char.isDigit = true := by
  induction l with
  | nil => rfl
  | cons c r ih =>
    rw [List.all_cons, Bool.and_eq_true] at hall
    rw [List.count_cons] at hc
    rw [dropFirstDot]
    by_cases hd : (c == '.') = true
    · rw [if_pos hd]
      rw [if_pos hd] at hc
      exact noDot_all_digit r hall.2 (by omega)
    · rw [if_neg hd]
      rw [if_neg hd] at hc
      rw [List.all_cons, Bool.and_eq_true]
      exact ⟨isNumCh_not_dot c hall.1 (Bool.eq_false_iff.mpr hd), ih hall.2 (by omega)⟩

/-- Removing the first dot from a string holding a digit leaves a nonempty
    string. -/
theorem dropFirstDot_nonempty (l : List Char) (h : l.any Char.isDigit = true) :
    (dropFirstDot l).isEmpty = false := by
  induction l with
  | nil => simp [List.any] at h
  | cons c r ih =>
    rw [dropFirstDot]
    by_cases hd : (c == '.') = true
    · rw [if_pos hd]
      rw [List.any_cons, Bool.or_eq_true] at h
      rcases h with h | h
      · rw [beq_iff_eq] at hd
        rw [hd] at h
        exact absurd h (by decide)
      · cases r with
        | nil => simp [List.any] at h
        | cons x xs => rfl
    · rw [if_neg hd]
      rfl

/-- A plain digit-and-dot numeral passes the open-hardware-monitor branch
    test `raw.replace('.', '', 1).isdigit()`. -/
theorem plainNumber_passes_check (s : String) (h : plainNumber s = true) :
    pyIsDigit (stripFirstDot s) = true := by
  rw [plainNumber, Bool.and_eq_true, Bool.and_eq_true] at h
  obtain ⟨⟨hall, hcount⟩, hany⟩ := h
  rw [decide_eq_true_eq] at hcount
  rw [pyIsDigit, Bool.and_eq_true]
  constructor
  · rw [Bool.not_eq_true']
    exact dropFirstDot_nonempty s.data hany
  · exact dropFirstDot_all_digit s.data hall hcount

/-- A nonempty all-digit string is a nonempty string. -/
theorem pyIsDigit_ne_empty (s : String) (h : pyIsDigit s = true) : s ≠ "" := by
  intro he
  rw [he] at h
  exact absurd h (by decide)

/-- A plain digit-and-dot numeral is a nonempty string. -/
theorem plainNumber_ne_empty (s : String) (h : plainNumber s = true) : s ≠ "" := by
  intro he
  rw [he] at h
  exact absurd h (by decide)

/-- A strategy producing no value falls through to the rest of the loop. -/
theorem winLoop_cons_none (b : Bool) (r : Option String)
    (rest : List (Bool × Option String)) (h : stratStep b r = none) :
    winLoop ((b, r) :: rest) = winLoop rest := by
  rw [winLoop, h]

/-
  Claim theorems.
-/

/-- C4: in the Windows/WSL probe's plain-integer classification, a raw
    value v with 2500 < v < 4000 converts as deci-Kelvin to v/10 - 273.15,
    a value with 200 < v < 400 converts as Kelvin to v - 273.15, and a
    value with 0 < v < 150 is returned unchanged as Celsius. -/
theorem windows_plain_int_unit_conversion (v : ℚ) :
    ((2500 < v ∧ v < 4000) → classifyPlainInt v = some (v / 10 - 273.15)) ∧
    ((200 < v ∧ v < 400) → classifyPlainInt v = some (v - 273.15)) ∧
    ((0 < v ∧ v < 150) → classifyPlainInt v = some v) := by
  refine ⟨fun h => ?_, fun h => ?_, fun h => ?_⟩
  · rw [classifyPlainInt, if_pos h]
  · rw [classifyPlainInt, if_neg (fun hc => by linarith [hc.1, h.2]), if_pos h]
  · rw [classifyPlainInt, if_neg (fun hc => by linarith [hc.1, h.2]),
      if_neg (fun hc => by linarith [hc.1, h.2]), if_pos h]

/-- Witness for C4 at the spec's example values 3032, 310 and 42. -/
theorem windows_plain_int_unit_conversion_w :
    classifyPlainInt 3032 = some (3032 / 10 - 273.15) ∧
    classifyPlainInt 310 = some (310 - 273.15) ∧
    classifyPlainInt 42 = some 42 :=
  ⟨(windows_plain_int_unit_conversion 3032).1 (by norm_num),
   (windows_plain_int_unit_conversion 310).2.1 (by norm_num),
   (windows_plain_int_unit_conversion 42).2.2 (by norm_num)⟩

/-- C5: raw values at most 0, at least 4000, or inside the gaps [150, 200]
    and [400, 2500] are rejected by every classification window, and such
    a strategy output makes the loop fall through to the next strategy. -/
theorem windows_plain_int_rejection :
    (∀ v : ℚ, (v ≤ 0 ∨ 4000 ≤ v ∨ (150 ≤ v ∧ v ≤ 200) ∨ (400 ≤ v ∧ v ≤ 2500)) →
      classifyPlainInt v = none) ∧
    (∀ (raw : String) (rest : List (Bool × Option String)),
      pyIsDigit raw = true →
      classifyPlainInt (digitsToNat raw.data : ℚ) = none →
      winLoop ((false, some raw) :: rest) = winLoop rest) := by
  constructor
  · intro v h
    rw [classifyPlainInt,
      if_neg (fun hc => by rcases h with h | h | ⟨a, b⟩ | ⟨a, b⟩ <;> linarith [hc.1, hc.2]),
      if_neg (fun hc => by rcases h with h | h | ⟨a, b⟩ | ⟨a, b⟩ <;> linarith [hc.1, hc.2]),
      if_neg (fun hc => by rcases h with h | h | ⟨a, b⟩ | ⟨a, b⟩ <;> linarith [hc.1, hc.2])]
  · intro raw rest hd hc
    apply winLoop_cons_none
    have hne : raw ≠ "" := pyIsDigit_ne_empty raw hd
    simp [stratStep, hne, hd, hc]

/-- Witness for C5 at the dead-zone value 2000 (inside the gap 400-2500). -/
theorem windows_plain_int_rejection_w :
    classifyPlainInt 2000 = none ∧
    winLoop [(false, some "2000")] = winLoop [] :=
  ⟨windows_plain_int_rejection.1 2000 (by norm_num),
   windows_plain_int_rejection.2 "2000" [] (by decide)
     (by rw [show digitsToNat "2000".data = 2000 from rfl]
         exact windows_plain_int_rejection.1 _ (by norm_num))⟩

/-- C9: in the open-hardware-monitor strategy, every output that is a plain
    decimal or integer numeral is returned directly as Celsius with no unit
    conversion ("55.5" yields 55.5), while such a decimal string fails the
    plain-integer branch used by the other three strategies. -/
theorem ohm_decimal_passthrough :
    (∀ raw : String, plainNumber raw = true →
      stratStep true (some raw) = some (numVal raw.data)) ∧
    stratStep true (some "55.5") = some (111 / 2) ∧
    stratStep false (some "55.5") = none := by
  refine ⟨fun raw h => ?_, ?_, rfl⟩
  · have hne : raw ≠ "" := plainNumber_ne_empty raw h
    have hck := plainNumber_passes_check raw h
    simp [stratStep, hne, hck, pyFloatQ, h]
  · have h : stratStep true (some "55.5")
        = some ((digitsToNat ['5', '5'] : ℚ)
            + (digitsToNat ['5'] : ℚ) / (10 ^ (['5'] : List Char).length)) := rfl
    rw [h, show digitsToNat ['5', '5'] = 55 from rfl,
      show digitsToNat ['5'] = 5 from rfl]
    norm_num

/-- Witness for C9 at the decimal output "7.25". -/
theorem ohm_decimal_passthrough_w :
    stratStep true (some "7.25") = some (numVal "7.25".data) :=
  ohm_decimal_passthrough.1 "7.25" (by decide)

/-- C10: a command that succeeds with whitespace-only stdout makes
    `run_command` return the empty string, not `None`, yet the strategy
    yields no reading and the probe behaves as if the strategy had failed. -/
theorem empty_output_fallthrough :
    (∀ s : String, pyStrip s = "" → run_command (.ok s) = some "") ∧
    (∀ (b : Bool) (rest : List (Bool × Option String)),
      stratStep b (some "") = none ∧
        winLoop ((b, some "") :: rest) = winLoop rest) ∧
    (∀ (s : String) (p2 p3 p4 pw : ProcOut), pyStrip s = "" →
      get_windows_temp ⟨.ok s, p2, p3, p4, pw⟩
        = get_windows_temp ⟨.fail, p2, p3, p4, pw⟩) := by
  have hstep : ∀ b : Bool, stratStep b (some "") = none := fun b => by
    simp [stratStep]
  refine ⟨fun s hs => ?_,
    fun b rest => ⟨hstep b, winLoop_cons_none _ _ _ (hstep b)⟩,
    fun s p2 p3 p4 pw hs => ?_⟩
  · show some (pyStrip s) = some ""
    rw [hs]
  · have h1 : run_command (.ok s) = some "" := by
      show some (pyStrip s) = some ""
      rw [hs]
    simp only [get_windows_temp]
    rw [h1, show run_command ProcOut.fail = none from rfl,
      winLoop_cons_none _ _ _ (hstep false),
      winLoop_cons_none _ _ _ (show stratStep false none = none from rfl)]

/-- Witness for C10 at a whitespace-only command output. -/
theorem empty_output_fallthrough_w :
    run_command (.ok "  ") = some "" ∧
    get_windows_temp ⟨.ok "  ", .fail, .fail, .fail, .fail⟩
      = get_windows_temp ⟨.fail, .fail, .fail, .fail, .fail⟩ :=
  ⟨empty_output_fallthrough.1 "  " (by decide),
   empty_output_fallthrough.2.2 "  " .fail .fail .fail .fail (by decide)⟩

/-- C8: the WSL detector reports WSL exactly when the kernel release,
    compared case-insensitively, contains "microsoft" or "wsl"; a release
    with mixed-case "Microsoft" is detected, and a failure obtaining the
    release yields not-detected without throwing. -/
theorem wsl_detection_charac :
    (∀ r : String, is_wsl (.ok r) = true ↔
      (LowerContains "microsoft".data r.data ∨ LowerContains "wsl".data r.data)) ∧
    is_wsl (.ok "4.4.0-19041-Microsoft") = true ∧
    is_wsl (.error ()) = false := by
  refine ⟨fun r => ?_, rfl, rfl⟩
  show (strHasSub "microsoft" ⟨r.data.map Char.toLower⟩
      || strHasSub "wsl" ⟨r.data.map Char.toLower⟩) = true ↔ _
  rw [Bool.or_eq_true]
  exact or_congr (hasSub_lower_iff _ _) (hasSub_lower_iff _ _)

/-- C6: a preferred-type zone with numeric reading wins over any other
    zone regardless of enumeration order, and without preferred zones the
    first valid positive zone's reading (divided by 1000) is returned. -/
theorem linux_preferred_zone_priority :
    (∀ (e : LinuxEnv) (z : Zone), e.thermalExists = true → z ∈ e.zones →
      preferredNum z = true →
      (∀ z' ∈ e.zones, preferredNum z' = true → zoneVal z' = zoneVal z) →
      get_linux_native_temp e = some (zoneVal z)) ∧
    (∀ (e : LinuxEnv) (z : Zone), e.thermalExists = true →
      (∀ z' ∈ e.zones, preferredNum z' = false) →
      e.zones.find? validPos = some z →
      get_linux_native_temp e = some (zoneVal z)) := by
  constructor
  · intro e z ht hmem hpref huniq
    have hsome : (e.zones.find? preferredNum).isSome :=
      List.find?_isSome.mpr ⟨z, hmem, hpref⟩
    obtain ⟨z0, hz0⟩ := Option.isSome_iff_exists.mp hsome
    have hval : zoneVal z0 = zoneVal z :=
      huniq z0 (List.mem_of_find?_eq_some hz0) (List.find?_some hz0)
    rw [get_linux_native_temp, if_neg (by simp [ht]),
      zoneScan_pref e.zones z0 hz0 none]
    show some (zoneVal z0) = some (zoneVal z)
    rw [hval]
  · intro e z ht hnone hfind
    rw [get_linux_native_temp, if_neg (by simp [ht]),
      zoneScan_fallback e.zones hnone, hfind]
    rfl

/-- Witness for C6 at the spec's coretemp/iwlwifi example in both
    enumeration orders. -/
theorem linux_preferred_zone_priority_w :
    get_linux_native_temp
        ⟨true, [⟨true, true, "iwlwifi", "35000"⟩,
                ⟨true, true, "coretemp", "45000"⟩], false, []⟩
      = some (zoneVal ⟨true, true, "coretemp", "45000"⟩) ∧
    get_linux_native_temp
        ⟨true, [⟨true, true, "coretemp", "45000"⟩,
                ⟨true, true, "iwlwifi", "35000"⟩], false, []⟩
      = some (zoneVal ⟨true, true, "coretemp", "45000"⟩) :=
  ⟨linux_preferred_zone_priority.1 _ _ rfl (by simp) (by decide) (by
      intro z' hz' hp'
      simp only [List.mem_cons, List.not_mem_nil, or_false] at hz'
      rcases hz' with rfl | rfl
      · exact absurd hp' (by decide)
      · rfl),
   linux_preferred_zone_priority.1 _ _ rfl (by simp) (by decide) (by
      intro z' hz' hp'
      simp only [List.mem_cons, List.not_mem_nil, or_false] at hz'
      rcases hz' with rfl | rfl
      · rfl
      · exact absurd hp' (by decide))⟩

/-- C7: the hwmon fallback returns a reading only when it lies strictly
    between 10 and 150 Celsius, returns the first accepted file's reading,
    rejects raw 10000 and 150000 (exclusive bounds), and accepts 50000. -/
theorem hwmon_sanity_window :
    (∀ (ds : List (List HwFile)) (c : ℚ),
      hwScanDirs ds = some c → 10 < c ∧ c < 150) ∧
    (∀ (fs : List HwFile) (f : HwFile), fs.find? hwOk = some f →
      hwFileScan fs = some (hwVal f)) ∧
    hwFileScan [⟨"temp1_input", "10000"⟩] = none ∧
    hwFileScan [⟨"temp1_input", "150000"⟩] = none ∧
    get_linux_native_temp ⟨true, [], true, [[⟨"temp1_input", "50000"⟩]]⟩
      = some 50 := by
  refine ⟨hwScanDirs_mem, hwFileScan_find, ?_, ?_, ?_⟩
  · have hv : hwVal ⟨"temp1_input", "10000"⟩ = 10 := by
      unfold hwVal
      rw [show digitsToNat (pyStrip "10000").data = 10000 from rfl]
      norm_num
    rw [hwFileScan, if_pos (by decide), if_pos (by decide),
      if_neg (by rw [hv]; exact fun hx => lt_irrefl _ hx.1)]
    rfl
  · have hv : hwVal ⟨"temp1_input", "150000"⟩ = 150 := by
      unfold hwVal
      rw [show digitsToNat (pyStrip "150000").data = 150000 from rfl]
      norm_num
    rw [hwFileScan, if_pos (by decide), if_pos (by decide),
      if_neg (by rw [hv]; exact fun hx => lt_irrefl _ hx.2)]
    rfl
  · have hv : hwVal ⟨"temp1_input", "50000"⟩ = 50 := by
      unfold hwVal
      rw [show digitsToNat (pyStrip "50000").data = 50000 from rfl]
      norm_num
    have h3 : hwFileScan [⟨"temp1_input", "50000"⟩]
        = some (hwVal ⟨"temp1_input", "50000"⟩) := by
      rw [hwFileScan, if_pos (by decide), if_pos (by decide),
        if_pos (by rw [hv]; exact ⟨by norm_num, by norm_num⟩)]
    have h2 : get_linux_native_temp ⟨true, [], true, [[⟨"temp1_input", "50000"⟩]]⟩
        = hwScanDirs [[⟨"temp1_input", "50000"⟩]] := rfl
    rw [h2, hwScanDirs, h3]
    show some (hwVal ⟨"temp1_input", "50000"⟩) = some 50
    rw [hv]

/-- Witness for C7: the first-accepted-file part applied to one in-window
    file. -/
theorem hwmon_sanity_window_w :
    hwFileScan [⟨"temp2_input", "50000"⟩]
      = some (hwVal ⟨"temp2_input", "50000"⟩) :=
  hwmon_sanity_window.2.1 _ _ (by
    have hv : hwVal ⟨"temp2_input", "50000"⟩ = 50 := by
      unfold hwVal
      rw [show digitsToNat (pyStrip "50000").data = 50000 from rfl]
      norm_num
    have h10 : decide ((10 : ℚ) < 50) = true := decide_eq_true (by norm_num)
    have h150 : decide ((50 : ℚ) < 150) = true := decide_eq_true (by norm_num)
    have hok : hwOk ⟨"temp2_input", "50000"⟩ = true := by
      rw [hwOk, hv, h10, h150]
      decide
    exact List.find?_cons_of_pos _ hok)

/-- C2 counterexample: both singled-out branches return readings without
    any magnitude sanity check — the macOS probe passes through 9999.9 and
    the Linux preferred-type branch passes through 999999.999, values far
    outside every plausibility window the program uses. -/
theorem sanity_check_counterexample :
    get_macos_temp (.ok "9999.9") = .ok (some (99999 / 10)) ∧
    (150 : ℚ) < 99999 / 10 ∧
    get_linux_native_temp
        ⟨true, [⟨true, true, "coretemp", "999999999"⟩], false, []⟩
      = some (999999999 / 1000) ∧
    (150 : ℚ) < 999999999 / 1000 := by
  refine ⟨?_, by norm_num, ?_, by norm_num⟩
  · have h : get_macos_temp (.ok "9999.9")
        = .ok (some ((digitsToNat ['9', '9', '9', '9'] : ℚ)
            + (digitsToNat ['9'] : ℚ) / (10 ^ (['9'] : List Char).length))) := rfl
    rw [h, show digitsToNat ['9', '9', '9', '9'] = 9999 from rfl,
      show digitsToNat ['9'] = 9 from rfl]
    norm_num
  · have h : get_linux_native_temp
        ⟨true, [⟨true, true, "coretemp", "999999999"⟩], false, []⟩
        = some (zoneVal ⟨true, true, "coretemp", "999999999"⟩) := rfl
    rw [h]
    unfold zoneVal zoneRaw
    rw [show digitsToNat (pyStrip "999999999").data = 999999999 from rfl]
    norm_num

/-- C2 amended: the Windows/WSL plain-integer classification and the wmic
    fallback only produce readings whose raw value lies in a plausibility
    window for the inferred unit, and the hwmon fallback only produces
    readings strictly inside (10, 150); the Linux preferred-type branch,
    the open-hardware-monitor branch and the macOS probe perform no such
    check. -/
theorem magnitude_checks_amended :
    (∀ v c : ℚ, classifyPlainInt v = some c →
      (2500 < v ∧ v < 4000) ∨ (200 < v ∧ v < 400) ∨ (0 < v ∧ v < 150)) ∧
    (∀ (ds : List (List HwFile)) (c : ℚ),
      hwScanDirs ds = some c → 10 < c ∧ c < 150) ∧
    (∀ (r : Option String) (c : ℚ), wmicStep r = some c →
      ∃ k : ℚ, 2500 < k ∧ k < 4000 ∧ c = k / 10 - 273.15) := by
  refine ⟨fun v c h => ?_, hwScanDirs_mem, fun r c h => ?_⟩
  · rw [classifyPlainInt] at h
    by_cases h1 : 2500 < v ∧ v < 4000
    · exact Or.inl h1
    · rw [if_neg h1] at h
      by_cases h2 : 200 < v ∧ v < 400
      · exact Or.inr (Or.inl h2)
      · rw [if_neg h2] at h
        by_cases h3 : 0 < v ∧ v < 150
        · exact Or.inr (Or.inr h3)
        · rw [if_neg h3] at h
          exact absurd h (by simp)
  · cases r with
    | none => exact absurd h (by simp [wmicStep])
    | some raw =>
      rw [wmicStep] at h
      by_cases he : raw = ""
      · rw [if_pos he] at h
        exact absurd h (by simp)
      · rw [if_neg he] at h
        split at h
        · exact absurd h (by simp)
        next ds hds =>
          by_cases hw : 2500 < (digitsToNat ds : ℚ) ∧ (digitsToNat ds : ℚ) < 4000
          · rw [if_pos hw] at h
            exact ⟨_, hw.1, hw.2, (Option.some.inj h).symm⟩
          · rw [if_neg hw] at h
            exact absurd h (by simp)

/-- Witness for the amended C2 at a deci-Kelvin reading of 3000. -/
theorem magnitude_checks_amended_w :
    (2500 < (3000 : ℚ) ∧ (3000 : ℚ) < 4000)
      ∨ (200 < (3000 : ℚ) ∧ (3000 : ℚ) < 400)
      ∨ (0 < (3000 : ℚ) ∧ (3000 : ℚ) < 150) :=
  magnitude_checks_amended.1 3000 (3000 / 10 - 273.15)
    (by norm_num [classifyPlainInt])

/-- C1: contrary to the never-raises claim, the macOS probe raises an
    uncaught ValueError whenever the first digit-and-dot token of the
    utility's output is not a valid numeral (a bare "." or a multi-dot
    token); on a well-formed output it returns the first numeral. -/
theorem macos_probe_raises_on_dot_token :
    get_macos_temp (.ok ".") = .error () ∧
    get_macos_temp (.ok "Error... no sensor") = .error () ∧
    get_macos_temp (.ok "CPU: 61.8 C") = .ok (some (numVal ['6', '1', '.', '8'])) :=
  ⟨rfl, rfl, rfl⟩

/-- C3: the single-line output contract — `N/A` on an unsupported
    environment and a one-fractional-digit reading otherwise — holds on
    completed runs, but the macOS crash input produces no output line at
    all: the run ends in an uncaught exception. -/
theorem output_contract_eval :
    pymain ⟨.ok "5.15.0-generic", "Darwin", ⟨.fail, .fail, .fail, .fail, .fail⟩,
        ⟨false, [], false, []⟩, .ok "."⟩ = .error () ∧
    pymain ⟨.ok "5.11", "SunOS", ⟨.fail, .fail, .fail, .fail, .fail⟩,
        ⟨false, [], false, []⟩, .fail⟩ = .ok "N/A" ∧
    pymain ⟨.ok "5.15.0-generic", "Linux", ⟨.fail, .fail, .fail, .fail, .fail⟩,
        ⟨true, [⟨true, true, "coretemp", "45000"⟩], false, []⟩, .fail⟩
      = .ok "45.0" := by
  refine ⟨rfl, rfl, ?_⟩
  have h : digitsToNat (pyStrip "45000").data = 45000 := rfl
  show Except.ok (fmt1 (zoneVal ⟨true, true, "coretemp", "45000"⟩)) = .ok "45.0"
  have h2 : zoneVal ⟨true, true, "coretemp", "45000"⟩ = 45 := by
    unfold zoneVal zoneRaw
    rw [h]
    norm_num
  rw [h2]
  norm_num [fmt1, rhe]
  rfl
